import Mathlib

/-!
Verification of the elementwise binary-operation dispatch engine
(`mlx/backend/metal/binary.cpp`): kernel variant-key construction,
index-width policy, contiguous-dimension collapsing, launch geometry,
and the dispatcher's binding/submission behaviour, shallowly embedded.
-/

set_option maxHeartbeats 1000000

namespace MlxBinary

/-- Broadcast category of an operand pair (`BinaryOpType` in
`mlx/backend/common/binary.h`). -/
inductive BinaryOpType where
  | ScalarScalar
  | ScalarVector
  | VectorScalar
  | VectorVector
  | General
deriving DecidableEq, Repr

/-- Read-only view of an array operand: shape, strides, the element-type
tag (the string `type_to_name` would produce), total element count
(`size()`), contiguous-storage element count (`data_size()`), and the
fully-contiguous flag. -/
structure ArrayView where
  shape : List Nat
  strides : List Int
  dtypeName : String
  size : Nat
  dataSize : Nat
  contiguous : Bool
deriving DecidableEq, Repr

/-- Modelled from the spec: `get_binary_op_type`
(`mlx/backend/common/binary.h`, not part of the sources here) classifies
an input pair: both element count 1 gives `ScalarScalar`; only the first
gives `ScalarVector`; only the second gives `VectorScalar`; identical
shapes with both operands fully contiguous gives `VectorVector`;
everything else is `General`. -/
def get_binary_op_type (a b : ArrayView) : BinaryOpType :=
  if a.size = 1 ∧ b.size = 1 then .ScalarScalar
  else if a.size = 1 then .ScalarVector
  else if b.size = 1 then .VectorScalar
  else if a.shape = b.shape ∧ a.contiguous ∧ b.contiguous then .VectorVector
  else .General

/-- Maximum of a 32-bit signed counter (`INT32_MAX`). -/
def INT32_MAX : Nat := 2147483647

/-- Maximum of a 32-bit unsigned counter (`UINT32_MAX`). -/
def UINT32_MAX : Nat := 4294967295

/-- Decimal digit character, as `std::to_string` renders one digit. -/
def digitChar : Nat → Char
  | 0 => '0'
  | 1 => '1'
  | 2 => '2'
  | 3 => '3'
  | 4 => '4'
  | 5 => '5'
  | 6 => '6'
  | 7 => '7'
  | 8 => '8'
  | _ => '9'

/-- Fuel-indexed decimal rendering of a natural number (the fuel is an
upper bound making the recursion structural). -/
def natCharsAux : Nat → Nat → List Char
  | 0, _ => []
  | f + 1, n =>
    if n < 10 then [digitChar n]
    else natCharsAux f (n / 10) ++ [digitChar (n % 10)]

/-- Decimal digits of `n`, most significant first (`std::to_string`). -/
def natChars (n : Nat) : List Char := natCharsAux (n + 1) n

/-- Decimal string of `n` (`std::to_string` on a nonnegative value). -/
def natStr (n : Nat) : String := String.mk (natChars n)

/-- Embedding of `get_kernel_name` (`binary.cpp` lines 21-63): builds the kernel
variant key from the broadcast category, the collapsed rank, the width
flag, the work-per-thread value, the operator name and the element-type
tag. -/
def get_kernel_name (bopt : BinaryOpType) (op : String) (typeName : String)
    (large : Bool) (ndim : Nat) (work_per_thread : Nat) : String :=
  let kname : String :=
    match bopt with
    | .ScalarScalar => "ss"
    | .ScalarVector => "sv"
    | .VectorScalar => "vs"
    | .VectorVector => "vv"
    | .General =>
      (if ndim ≤ 3 then "g" ++ natStr ndim
       else "g" ++ "n" ++ natStr work_per_thread)
        ++ (if large then "large" else "")
  let kname : String :=
    if bopt ≠ .General ∧ bopt ≠ .ScalarScalar then
      if large then kname ++ "2"
      else if 1 < work_per_thread then kname ++ "n"
      else kname
    else kname
  kname ++ "_" ++ op ++ typeName

/-- The category tag the variant key starts with. -/
def catTag : BinaryOpType → String
  | .ScalarScalar => "ss"
  | .ScalarVector => "sv"
  | .VectorScalar => "vs"
  | .VectorVector => "vv"
  | .General => "g"

/-! ### Decimal rendering: digit facts, evaluation, injectivity -/

/-- Numeric value of a digit character. -/
def charVal (c : Char) : Nat := c.toNat - 48

/-- Decimal value of a digit string, most significant first. -/
def natVal (l : List Char) : Nat :=
  l.foldl (fun acc c => 10 * acc + charVal c) 0

/-! ### The variant key as a character list -/

/-- Width suffix characters of compact (non-`General`, non-`ScalarScalar`)
variants: `2` when Wide, `n` when work-per-thread exceeds 1. -/
def sfxChars (large : Bool) (w : Nat) : List Char :=
  if large then ['2'] else if 1 < w then ['n'] else []

/-- Suffix appended to `General` variants when the width is Wide. -/
def largeChars (large : Bool) : List Char :=
  if large then ['l', 'a', 'r', 'g', 'e'] else []

/-- Rank-or-overflow part of a `General` variant: the collapsed rank when
at most 3, else the overflow marker with the work-per-thread value. -/
def generalCore (n w : Nat) : List Char :=
  if n ≤ 3 then natChars n else 'n' :: natChars w

/-- Characters of the variant part of a kernel key (everything before the
underscore separating it from the operator and dtype names). -/
def variantChars : BinaryOpType → Bool → Nat → Nat → List Char
  | .ScalarScalar, _, _, _ => ['s', 's']
  | .ScalarVector, l, _, w => ['s', 'v'] ++ sfxChars l w
  | .VectorScalar, l, _, w => ['v', 's'] ++ sfxChars l w
  | .VectorVector, l, _, w => ['v', 'v'] ++ sfxChars l w
  | .General, l, n, w => 'g' :: (generalCore n w ++ largeChars l)

/-- Rank bucket encoded by the variant key: the exact rank up to 3, one
shared overflow bucket above. -/
def rankBucket (n : Nat) : Nat := if n ≤ 3 then n else 4

/-! ### Operator and dtype name sets -/

/-- Modelled from the spec: the operator names passed to the dispatcher
come from the binary primitives' `name()` (`mlx/primitives.h`, outside
these sources); the spec shows variant keys of the form `_add<dtype>`,
so these are the lowercase kernel operator names of the binary
primitives. -/
def opNames : List String :=
  ["add", "arctan2", "div", "divmod", "rem", "eq", "ge", "gt", "le", "lt",
   "land", "lor", "lae", "max", "min", "mul", "naneq", "neq", "pow", "sub",
   "and", "or", "xor", "lsl", "lsr"]

/-- Modelled from the spec: the element-type tags produced by
`type_to_name` (`mlx/backend/metal/utils.h`, outside these sources),
one per supported dtype. -/
def dtypeNames : List String :=
  ["bool_", "uint8", "uint16", "uint32", "uint64", "int8", "int16",
   "int32", "int64", "float16", "bfloat16", "float32", "float64",
   "complex64"]

/-- All (operator, dtype) pairs. -/
def opDtPairs : List (String × String) :=
  opNames.flatMap fun o => dtypeNames.map fun t => (o, t)

/-- One step of the positional fingerprint of a character list. -/
def encStep (a : Nat) (c : Char) : Nat := a * 1114112 + c.toNat

/-- Injective numeric fingerprint of a character list: positional
encoding base the number of code points, with a leading sentinel. -/
def encChars (l : List Char) : Nat := l.foldl encStep 1

/-! ### The dispatcher -/

/-- A 3-component launch size (`MTL::Size`). -/
structure Size3 where
  x : Nat
  y : Nat
  z : Nat
deriving DecidableEq, Repr

/-- One observable effect on the per-stream command encoder. -/
inductive Action where
  | pipeline (kname : String)
  | inArr (v : ArrayView) (slot : Nat)
  | outArr (v : ArrayView) (slot : Nat)
  | vecShape (s : List Nat) (slot : Nat)
  | vecStrides (s : List Int) (slot : Nat)
  | bytesI32 (v : Nat) (slot : Nat)
  | bytesI64 (v : Nat) (slot : Nat)
  | dispatchThreads (grid : Size3) (group : Size3)
deriving DecidableEq, Repr

/-- Result of a dispatch: the encoder actions performed, and the fatal
error message when the dispatch threw before submitting. -/
structure DispatchResult where
  trace : List Action
  error : Option String
deriving DecidableEq, Repr

/-- External collaborators of the dispatcher, abstracted: the
contiguous-dimension collapser (`collapse_contiguous_dims`), the
work-per-thread heuristic (`get_work_per_thread`), the block-size
heuristic (`get_block_dims`), the 2D-grid heuristic
(`get_2d_grid_dims`), the kernel's maximum threads-per-group, and the
output allocator (`set_binary_op_output_data`). -/
structure Env where
  collapse : ArrayView → ArrayView → ArrayView →
    List Nat × List Int × List Int × List Int
  work_per_thread : String → Nat → Nat
  block_dims : Nat → Nat → Nat → Size3
  grid_dims_2d : List Nat → List Int → Nat → Size3
  max_threads : Nat
  set_out : ArrayView → ArrayView → ArrayView → BinaryOpType → ArrayView

/-- Width selection (`binary.cpp` lines 94-99): on the `General` path the
counter is Wide when either input's storage element count or the
output's element count exceeds `INT32_MAX`; on the compact paths when
the output's storage element count exceeds `UINT32_MAX`. -/
def largeOf (bopt : BinaryOpType) (a b out : ArrayView) : Bool :=
  if bopt = .General then
    decide (INT32_MAX < a.dataSize) || decide (INT32_MAX < b.dataSize) ||
      decide (INT32_MAX < out.size)
  else
    decide (UINT32_MAX < out.dataSize)

/-- Work-per-thread selection (`binary.cpp` lines 97 and 100): 4 or 2 on
the `General` path depending on the width, the external heuristic on the
compact paths. -/
def wptOf (env : Env) (bopt : BinaryOpType) (large : Bool)
    (a out : ArrayView) : Nat :=
  if bopt = .General then (if large then 4 else 2)
  else env.work_per_thread a.dtypeName out.dataSize

/-- Embedding of `maybe_collapse` (`binary.cpp` lines 80-89): collapse contiguous
dims on the `General` path, empty shape and strides otherwise. -/
def maybeCollapse (env : Env) (bopt : BinaryOpType) (a b out : ArrayView) :
    List Nat × List Int × List Int × List Int :=
  if bopt = .General then env.collapse a b out else ([], [], [], [])

/-- Embedding of `ceildiv` from the backend utility header (outside these sources):
ceiling division on nonnegative counts. -/
def ceildiv (n m : Nat) : Nat := (n + m - 1) / m

/-- The argument bindings common to every launch: pipeline state, then
operand-a, operand-b and the output(s) at consecutive slots. -/
def headerTrace (kname : String) (a b out : ArrayView)
    (out2 : Option ArrayView) : List Action :=
  [.pipeline kname, .inArr a 0, .inArr b 1, .outArr out 2] ++
    (match out2 with
     | some o => [Action.outArr o 3]
     | none => [])

/-- First free argument slot after the array arguments. -/
def argStart (out2 : Option ArrayView) : Nat :=
  match out2 with
  | some _ => 4
  | none => 3

/-- Embedding of `binary_op_gpu_inplace` (`binary.cpp` lines 65-163): classify the
pair, return on an empty output, collapse when `General`, pick width and
work-per-thread, build the variant key, bind the arguments in slot
order, and either throw on the `General` path when the kernel's maximum
threads-per-group is not 1024 or submit exactly one launch. -/
def binary_op_gpu_inplace (env : Env) (a b out : ArrayView)
    (out2 : Option ArrayView) (op : String) : DispatchResult :=
  let bopt := get_binary_op_type a b
  if out.size = 0 then ⟨[], none⟩
  else
    let c := maybeCollapse env bopt a b out
    let shape := c.1
    let strides_a := c.2.1
    let strides_b := c.2.2.1
    let ndim := shape.length
    let large := largeOf bopt a b out
    let work_per_thread := wptOf env bopt large a out
    let kernel_name := get_kernel_name bopt op a.dtypeName large ndim
      work_per_thread
    let hdr := headerTrace kernel_name a b out out2
    let i := argStart out2
    if bopt = .General then
      let dim0 := if 0 < ndim then shape.getD (ndim - 1) 1 else 1
      let dim1 := if 1 < ndim then shape.getD (ndim - 2) 1 else 1
      let rest := out.size / (dim0 * dim1)
      let bindsDim :=
        if 3 < ndim then
          ([Action.vecShape shape i, Action.vecStrides strides_a (i + 1),
            Action.vecStrides strides_b (i + 2),
            Action.bytesI32 ndim (i + 3)],
           (dim0 + work_per_thread - 1) / work_per_thread)
        else
          ([Action.vecStrides strides_a i,
            Action.vecStrides strides_b (i + 1)], dim0)
      if env.max_threads ≠ 1024 then
        ⟨hdr ++ bindsDim.1, some "[Metal::binary] Must use 1024 sized block"⟩
      else
        ⟨hdr ++ bindsDim.1 ++
          [Action.dispatchThreads ⟨bindsDim.2, dim1, rest⟩
            (env.block_dims bindsDim.2 dim1 rest)], none⟩
    else
      let nthreads := ceildiv out.dataSize work_per_thread
      let tgs := if nthreads < env.max_threads then nthreads
        else env.max_threads
      if large then
        ⟨hdr ++ [Action.bytesI64 out.dataSize i,
          Action.dispatchThreads
            (env.grid_dims_2d out.shape out.strides work_per_thread)
            ⟨tgs, 1, 1⟩], none⟩
      else
        ⟨hdr ++ [Action.bytesI32 out.dataSize i,
          Action.dispatchThreads ⟨nthreads, 1, 1⟩ ⟨tgs, 1, 1⟩], none⟩

/-- Embedding of `binary_op_gpu` (`binary.cpp` lines 196-215): allocate the output via
the external `set_binary_op_output_data`, then run the in-place form. -/
def binary_op_gpu (env : Env) (a b out : ArrayView) (op : String) :
    DispatchResult :=
  let bopt := get_binary_op_type a b
  let outAlloc := env.set_out a b out bopt
  binary_op_gpu_inplace env a b outAlloc none op

/-- Number of kernel submissions in a trace. -/
def dispatchCount (tr : List Action) : Nat :=
  tr.countP fun act =>
    match act with
    | .dispatchThreads _ _ => true
    | _ => false

/-- The binding actions of a trace (everything except submissions). -/
def bindTrace (tr : List Action) : List Action :=
  tr.filter fun act =>
    match act with
    | .dispatchThreads _ _ => false
    | _ => true

/-- Shape or stride vector bindings of a trace. -/
def isVecBind : Action → Bool
  | .vecShape _ _ => true
  | .vecStrides _ _ => true
  | _ => false

/-- Width chosen for a dispatch of this input/output triple. -/
def dispatchLarge (a b out : ArrayView) : Bool :=
  largeOf (get_binary_op_type a b) a b out

/-- Work-per-thread chosen for a dispatch of this input/output triple. -/
def dispatchWpt (env : Env) (a b out : ArrayView) : Nat :=
  wptOf env (get_binary_op_type a b) (dispatchLarge a b out) a out

/-- Collapsed shape a dispatch of this triple passes onward. -/
def collapsedShape (env : Env) (a b out : ArrayView) : List Nat :=
  (maybeCollapse env (get_binary_op_type a b) a b out).1

/-- Collapsed operand-a strides a dispatch of this triple passes onward. -/
def collapsedStridesA (env : Env) (a b out : ArrayView) : List Int :=
  (maybeCollapse env (get_binary_op_type a b) a b out).2.1

/-- Collapsed operand-b strides a dispatch of this triple passes onward. -/
def collapsedStridesB (env : Env) (a b out : ArrayView) : List Int :=
  (maybeCollapse env (get_binary_op_type a b) a b out).2.2.1

/-- Variant key built for a dispatch of this triple. -/
def dispatchKname (env : Env) (a b out : ArrayView) (op : String) : String :=
  get_kernel_name (get_binary_op_type a b) op a.dtypeName
    (dispatchLarge a b out) (collapsedShape env a b out).length
    (dispatchWpt env a b out)

/-- Last element of a shape, 1 for rank 0 (the claim-side reading of
"the collapsed shape's last dimension"). -/
def lastD : List Nat → Nat
  | [] => 1
  | [x] => x
  | _ :: xs => lastD xs

/-- Second-to-last element of a shape, 1 for rank below 2. -/
def secondLastD : List Nat → Nat
  | [] => 1
  | [_] => 1
  | [x, _] => x
  | _ :: xs => secondLastD xs

/-- Claim-side launch dimension `dim0`: the collapsed shape's last
dimension size, 1 for rank 0. -/
def gDim0 (env : Env) (a b out : ArrayView) : Nat :=
  lastD (collapsedShape env a b out)

/-- Claim-side launch dimension `dim1`: the collapsed shape's
second-to-last dimension size, 1 for rank below 2. -/
def gDim1 (env : Env) (a b out : ArrayView) : Nat :=
  secondLastD (collapsedShape env a b out)

/-- Claim-side `rest`: total output elements over `dim0 * dim1`. -/
def gRest (env : Env) (a b out : ArrayView) : Nat :=
  out.size / (gDim0 env a b out * gDim1 env a b out)

/-- Claim-side first grid dimension: `dim0`, ceiling-divided by
work-per-thread when the collapsed rank exceeds 3. -/
def gGrid0 (env : Env) (a b out : ArrayView) : Nat :=
  if 3 < (collapsedShape env a b out).length then
    ceildiv (gDim0 env a b out) (dispatchWpt env a b out)
  else gDim0 env a b out

/-- The `General`-path argument bindings after the array arguments:
shape, both stride vectors and the rank when the collapsed rank exceeds
3, only the stride vectors otherwise. -/
def generalBinds (env : Env) (a b out : ArrayView) (out2 : Option ArrayView) :
    List Action :=
  if 3 < (collapsedShape env a b out).length then
    [Action.vecShape (collapsedShape env a b out) (argStart out2),
     Action.vecStrides (collapsedStridesA env a b out) (argStart out2 + 1),
     Action.vecStrides (collapsedStridesB env a b out) (argStart out2 + 2),
     Action.bytesI32 (collapsedShape env a b out).length (argStart out2 + 3)]
  else
    [Action.vecStrides (collapsedStridesA env a b out) (argStart out2),
     Action.vecStrides (collapsedStridesB env a b out) (argStart out2 + 1)]

/-- Required thread count of a compact dispatch. -/
def compactThreads (env : Env) (a b out : ArrayView) : Nat :=
  ceildiv out.dataSize (dispatchWpt env a b out)

/-- The five operators of `BitwiseBinary`. -/
inductive BitwiseOp where
  | And
  | Or
  | Xor
  | LeftShift
  | RightShift
deriving DecidableEq, Repr

/-- Embedding of `BitwiseBinary::eval_gpu` (`binary.cpp` lines 237-255): a switch on
the operator whose five cases each perform the same call
`binary_op_gpu(inputs, out, name())`. -/
def BitwiseBinary_eval_gpu (env : Env) (op_ : BitwiseOp)
    (name : BitwiseOp → String) (a b out : ArrayView) : DispatchResult :=
  match op_ with
  | .And => binary_op_gpu env a b out (name op_)
  | .Or => binary_op_gpu env a b out (name op_)
  | .Xor => binary_op_gpu env a b out (name op_)
  | .LeftShift => binary_op_gpu env a b out (name op_)
  | .RightShift => binary_op_gpu env a b out (name op_)

/-- Concrete environment with the reference 1024 threads-per-group. -/
def env0 : Env :=
  ⟨fun _ _ _ => ([6], [1], [1], [1]), fun _ _ => 2,
   fun x y z => ⟨x, y, z⟩, fun _ _ _ => ⟨7, 1, 1⟩, 1024, fun _ _ o _ => o⟩

/-- Concrete environment whose kernels report 512 threads-per-group. -/
def env512 : Env :=
  ⟨fun _ _ _ => ([6], [1], [1], [1]), fun _ _ => 2,
   fun x y z => ⟨x, y, z⟩, fun _ _ _ => ⟨7, 1, 1⟩, 512, fun _ _ o _ => o⟩

/-- Concrete environment collapsing to a rank-4 shape. -/
def env4d : Env :=
  ⟨fun _ _ _ => ([2, 1, 1, 3], [3, 3, 3, 1], [3, 3, 3, 1], [3, 3, 3, 1]),
   fun _ _ => 2, fun x y z => ⟨x, y, z⟩, fun _ _ _ => ⟨7, 1, 1⟩, 1024,
   fun _ _ o _ => o⟩

/-- A rank-2 contiguous operand of six elements. -/
def aGen : ArrayView := ⟨[2, 3], [3, 1], "float32", 6, 6, true⟩

/-- A rank-1 operand of three elements (broadcast against `aGen`). -/
def bGen : ArrayView := ⟨[3], [1], "float32", 3, 3, true⟩

/-- The six-element output of the general pair. -/
def outGen : ArrayView := ⟨[2, 3], [3, 1], "float32", 6, 6, true⟩

/-- A single-element operand. -/
def aScalar : ArrayView := ⟨[], [], "float32", 1, 1, true⟩

/-- A contiguous four-element vector operand. -/
def bVec : ArrayView := ⟨[4], [1], "float32", 4, 4, true⟩

/-- The four-element output of the scalar-vector pair. -/
def outVec : ArrayView := ⟨[4], [1], "float32", 4, 4, true⟩

/-! ### Theorems -/

theorem strData_append (s t : String) : (s ++ t).data = s.data ++ t.data := by
  cases s
  cases t
  rfl

theorem strExt {s t : String} (h : s.data = t.data) : s = t := by
  cases s
  cases t
  exact congrArg String.mk h

/-- Claim C1 (amended): for every category other than `General` and
`ScalarScalar`, the variant-key builder appends the width suffix to the
category tag: `2` when the width is Wide, `n` when work-per-thread
exceeds 1 and the width is not Wide. -/
theorem c1_width_suffix (b : BinaryOpType) (op t : String) (l : Bool)
    (n w : Nat) (h1 : b ≠ .General) (h2 : b ≠ .ScalarScalar) :
    get_kernel_name b op t l n w =
      catTag b ++ (if l then "2" else if 1 < w then "n" else "")
        ++ "_" ++ op ++ t := by
  apply strExt
  cases b
  · exact absurd rfl h2
  all_goals first
  | exact absurd rfl h1
  | (simp only [get_kernel_name, catTag]
     split_ifs <;>
       simp_all [strData_append, List.append_assoc])

/-- Witness for C1 (amended) at a concrete `ScalarVector` Wide dispatch. -/
theorem c1_width_suffix_witness :
    get_kernel_name .ScalarVector "add" "float32" true 0 1 =
      catTag .ScalarVector ++ (if true then "2" else if 1 < 1 then "n" else "")
        ++ "_" ++ "add" ++ "float32" :=
  c1_width_suffix .ScalarVector "add" "float32" true 0 1 (by decide) (by decide)

/-- Counterexample to C1 as stated: for the non-`General` category
`ScalarScalar` with Wide width, no `2` suffix is appended to the tag. -/
theorem c1_scalarscalar_no_suffix :
    get_kernel_name .ScalarScalar "add" "float32" true 0 1 = "ss_addfloat32"
      ∧ ("ss_addfloat32" : String) ≠ "ss2_addfloat32" := by
  exact ⟨rfl, by decide⟩

theorem charVal_digitChar (m : Nat) (h : m < 10) :
    charVal (digitChar m) = m := by
  interval_cases m <;> decide

theorem digitChar_isDigit (m : Nat) (h : m < 10) :
    (digitChar m).isDigit = true := by
  interval_cases m <;> decide

theorem natVal_append_digit (l : List Char) (c : Char) :
    natVal (l ++ [c]) = 10 * natVal l + charVal c := by
  simp [natVal, List.foldl_append]

theorem natCharsAux_digits (fuel : Nat) :
    ∀ n, n < fuel → ∀ c ∈ natCharsAux fuel n, c.isDigit = true := by
  induction fuel with
  | zero => intro n h; omega
  | succ f ih =>
    intro n h c hc
    simp only [natCharsAux] at hc
    split at hc
    · next h10 =>
        simp only [List.mem_singleton] at hc
        subst hc
        exact digitChar_isDigit n h10
    · next h10 =>
        rcases List.mem_append.mp hc with hc | hc
        · exact ih (n / 10) (by omega) c hc
        · simp only [List.mem_singleton] at hc
          subst hc
          exact digitChar_isDigit (n % 10) (by omega)

theorem natCharsAux_val (fuel : Nat) :
    ∀ n, n < fuel → natVal (natCharsAux fuel n) = n := by
  induction fuel with
  | zero => intro n h; omega
  | succ f ih =>
    intro n h
    simp only [natCharsAux]
    split
    · next h10 =>
        have hv := charVal_digitChar n h10
        simp [natVal, hv]
    · next h10 =>
        rw [natVal_append_digit, ih (n / 10) (by omega),
          charVal_digitChar (n % 10) (by omega)]
        omega

theorem natChars_digits (n : Nat) : ∀ c ∈ natChars n, c.isDigit = true :=
  natCharsAux_digits (n + 1) n (Nat.lt_succ_self n)

theorem natVal_natChars (n : Nat) : natVal (natChars n) = n :=
  natCharsAux_val (n + 1) n (Nat.lt_succ_self n)

theorem natChars_inj {m n : Nat} (h : natChars m = natChars n) : m = n := by
  rw [← natVal_natChars m, h, natVal_natChars]

theorem natChars_small {n : Nat} (h : n < 10) :
    natChars n = [digitChar n] := by
  simp [natChars, natCharsAux, h]

theorem isDigit_ne_us {c : Char} (h : c.isDigit = true) : c ≠ '_' := by
  intro he
  subst he
  exact absurd h (by decide)

/-! ### Splitting concatenations at a separator -/

theorem sep_split (P : Char → Prop) (l₁ : List Char) :
    ∀ (l₂ t₁ t₂ : List Char),
      (∀ c ∈ l₁, P c) → (∀ c ∈ l₂, P c) →
      (∀ c, t₁.head? = some c → ¬ P c) → (∀ c, t₂.head? = some c → ¬ P c) →
      l₁ ++ t₁ = l₂ ++ t₂ → l₁ = l₂ ∧ t₁ = t₂ := by
  induction l₁ with
  | nil =>
    intro l₂ t₁ t₂ h1 h2 n1 n2 he
    cases l₂ with
    | nil => exact ⟨rfl, he⟩
    | cons c l₂ =>
      exfalso
      simp only [List.nil_append, List.cons_append] at he
      exact n1 c (by rw [he]; rfl) (h2 c (by simp))
  | cons c l₁ ih =>
    intro l₂ t₁ t₂ h1 h2 n1 n2 he
    cases l₂ with
    | nil =>
      exfalso
      simp only [List.nil_append, List.cons_append] at he
      exact n2 c (by rw [← he]; rfl) (h1 c (by simp))
    | cons d l₂ =>
      simp only [List.cons_append, List.cons.injEq] at he
      obtain ⟨rfl, he⟩ := he
      obtain ⟨h, h'⟩ := ih l₂ t₁ t₂ (fun x hx => h1 x (by simp [hx]))
        (fun x hx => h2 x (by simp [hx])) n1 n2 he
      exact ⟨by rw [h], h'⟩

theorem data_g : ("g" : String).data = ['g'] := rfl

theorem data_n : ("n" : String).data = ['n'] := rfl

theorem data_two : ("2" : String).data = ['2'] := rfl

theorem data_large : ("large" : String).data = ['l', 'a', 'r', 'g', 'e'] := rfl

theorem data_us : ("_" : String).data = ['_'] := rfl

theorem data_ss : ("ss" : String).data = ['s', 's'] := rfl

theorem data_sv : ("sv" : String).data = ['s', 'v'] := rfl

theorem data_vs : ("vs" : String).data = ['v', 's'] := rfl

theorem data_vv : ("vv" : String).data = ['v', 'v'] := rfl

theorem natStr_data (n : Nat) : (natStr n).data = natChars n := rfl

theorem get_kernel_name_data (b : BinaryOpType) (op t : String) (l : Bool)
    (n w : Nat) :
    (get_kernel_name b op t l n w).data =
      variantChars b l n w ++ '_' :: (op.data ++ t.data) := by
  cases b <;>
    simp only [get_kernel_name, variantChars, generalCore, largeChars,
      sfxChars, natStr] <;>
    split_ifs <;>
    simp_all [strData_append, List.append_assoc, data_g, data_n, data_two,
      data_large, data_us, data_ss, data_sv, data_vs, data_vv]

theorem variantChars_no_us (b : BinaryOpType) (l : Bool) (n w : Nat) :
    ∀ c ∈ variantChars b l n w, c ≠ '_' := by
  have hsfx : ∀ c ∈ sfxChars l w, c ≠ '_' := by
    intro c hc
    simp only [sfxChars] at hc
    split_ifs at hc <;> simp_all
  cases b <;> intro c hc <;>
    simp only [variantChars, List.mem_append, List.mem_cons,
      List.mem_singleton, List.not_mem_nil, or_false] at hc
  · rcases hc with rfl | rfl <;> decide
  · rcases hc with (rfl | rfl) | hc
    · decide
    · decide
    · exact hsfx c hc
  · rcases hc with (rfl | rfl) | hc
    · decide
    · decide
    · exact hsfx c hc
  · rcases hc with (rfl | rfl) | hc
    · decide
    · decide
    · exact hsfx c hc
  · rcases hc with rfl | hc
    · decide
    · rcases hc with hc | hc
      · simp only [generalCore] at hc
        split_ifs at hc
        · exact isDigit_ne_us (natChars_digits n c hc)
        · rcases List.mem_cons.mp hc with rfl | hc
          · decide
          · exact isDigit_ne_us (natChars_digits w c hc)
      · simp only [largeChars] at hc
        split_ifs at hc
        · simp only [List.mem_cons, List.not_mem_nil, or_false] at hc
          rcases hc with rfl | rfl | rfl | rfl | rfl <;> decide
        · exact absurd hc (List.not_mem_nil c)

theorem char_toNat_injective (c₁ c₂ : Char) (h : c₁.toNat = c₂.toNat) :
    c₁ = c₂ := by
  rcases c₁ with ⟨⟨v₁⟩, p₁⟩
  rcases c₂ with ⟨⟨v₂⟩, p₂⟩
  have hv : v₁ = v₂ := BitVec.eq_of_toNat_eq h
  subst hv
  rfl

theorem char_toNat_lt (c : Char) : c.toNat < 1114112 := by
  have h := c.valid
  unfold UInt32.isValidChar Nat.isValidChar at h
  rcases h with h | ⟨h1, h2⟩ <;>
    · simp [Char.toNat] at *
      omega

theorem encAux_bounds (l : List Char) : ∀ a : Nat,
    a * 1114112 ^ l.length ≤ l.foldl encStep a ∧
    l.foldl encStep a < (a + 1) * 1114112 ^ l.length := by
  induction l with
  | nil => intro a; simp
  | cons c l ih =>
    intro a
    have hc := char_toNat_lt c
    have h := ih (a * 1114112 + c.toNat)
    have hfold : (c :: l).foldl encStep a =
        l.foldl encStep (a * 1114112 + c.toNat) := rfl
    rw [hfold]
    constructor
    · calc a * 1114112 ^ (c :: l).length
          = (a * 1114112) * 1114112 ^ l.length := by
            simp [pow_succ]
            ring
        _ ≤ (a * 1114112 + c.toNat) * 1114112 ^ l.length :=
            Nat.mul_le_mul_right _ (by omega)
        _ ≤ l.foldl encStep (a * 1114112 + c.toNat) := h.1
    · calc l.foldl encStep (a * 1114112 + c.toNat)
          < (a * 1114112 + c.toNat + 1) * 1114112 ^ l.length := h.2
        _ ≤ ((a + 1) * 1114112) * 1114112 ^ l.length :=
            Nat.mul_le_mul_right _ (by omega)
        _ = (a + 1) * 1114112 ^ (c :: l).length := by
            simp [pow_succ]
            ring

theorem encChars_lt_of_length_lt {l₁ l₂ : List Char}
    (h : l₁.length < l₂.length) : encChars l₁ < encChars l₂ := by
  have b₁ := (encAux_bounds l₁ 1).2
  have b₂ := (encAux_bounds l₂ 1).1
  have h3 : (1114112 : Nat) ^ (l₁.length + 1) ≤ 1114112 ^ l₂.length :=
    Nat.pow_le_pow_right (by omega) h
  rw [pow_succ] at h3
  calc encChars l₁ < (1 + 1) * 1114112 ^ l₁.length := b₁
    _ ≤ 1114112 ^ l₁.length * 1114112 := by omega
    _ ≤ 1114112 ^ l₂.length := h3
    _ = 1 * 1114112 ^ l₂.length := by omega
    _ ≤ encChars l₂ := b₂

theorem encChars_snoc (l : List Char) (c : Char) :
    encChars (l ++ [c]) = encChars l * 1114112 + c.toNat := by
  simp [encChars, List.foldl_append, encStep]

theorem encChars_inj_aux : ∀ (n : Nat) (l₁ l₂ : List Char),
    l₁.length = n → l₂.length = n → encChars l₁ = encChars l₂ →
      l₁ = l₂ := by
  intro n
  induction n with
  | zero =>
    intro l₁ l₂ h₁ h₂ _
    rw [List.length_eq_zero] at h₁ h₂
    rw [h₁, h₂]
  | succ n ih =>
    intro l₁ l₂ h₁ h₂ he
    rcases List.eq_nil_or_concat l₁ with rfl | ⟨L₁, c₁, rfl⟩
    · simp at h₁
    rcases List.eq_nil_or_concat l₂ with rfl | ⟨L₂, c₂, rfl⟩
    · simp at h₂
    simp only [List.concat_eq_append] at h₁ h₂ he ⊢
    rw [encChars_snoc, encChars_snoc] at he
    have hc₁ := char_toNat_lt c₁
    have hc₂ := char_toNat_lt c₂
    have hd : c₁.toNat = c₂.toNat := by omega
    have hL : encChars L₁ = encChars L₂ := by omega
    have hlen₁ : L₁.length = n := by simp at h₁; omega
    have hlen₂ : L₂.length = n := by simp at h₂; omega
    rw [ih L₁ L₂ hlen₁ hlen₂ hL, char_toNat_injective c₁ c₂ hd]

theorem encChars_injective {l₁ l₂ : List Char}
    (h : encChars l₁ = encChars l₂) : l₁ = l₂ := by
  have hlen : l₁.length = l₂.length := by
    rcases Nat.lt_trichotomy l₁.length l₂.length with hl | hl | hl
    · exact absurd h (Nat.ne_of_lt (encChars_lt_of_length_lt hl))
    · exact hl
    · exact absurd h.symm (Nat.ne_of_lt (encChars_lt_of_length_lt hl))
  exact encChars_inj_aux l₂.length l₁ l₂ hlen rfl h

set_option maxRecDepth 8000 in
theorem opDtPairs_enc_nodup :
    (opDtPairs.map fun p : String × String =>
      encChars (p.1 ++ p.2).data).Nodup := by decide

theorem opDtPairs_map_nodup :
    (opDtPairs.map fun p : String × String => p.1 ++ p.2).Nodup := by
  have h := opDtPairs_enc_nodup
  have h2 : (opDtPairs.map fun p : String × String =>
      encChars (p.1 ++ p.2).data) =
      ((opDtPairs.map fun p : String × String => p.1 ++ p.2).map
        fun s => encChars s.data) := by
    simp [List.map_map]
  rw [h2] at h
  exact h.of_map _

theorem opdt_inj {o₁ t₁ o₂ t₂ : String} (ho₁ : o₁ ∈ opNames)
    (ht₁ : t₁ ∈ dtypeNames) (ho₂ : o₂ ∈ opNames) (ht₂ : t₂ ∈ dtypeNames)
    (h : o₁ ++ t₁ = o₂ ++ t₂) : o₁ = o₂ ∧ t₁ = t₂ := by
  have h₁ : (o₁, t₁) ∈ opDtPairs :=
    List.mem_flatMap.mpr ⟨o₁, ho₁, List.mem_map.mpr ⟨t₁, ht₁, rfl⟩⟩
  have h₂ : (o₂, t₂) ∈ opDtPairs :=
    List.mem_flatMap.mpr ⟨o₂, ho₂, List.mem_map.mpr ⟨t₂, ht₂, rfl⟩⟩
  have h3 := List.inj_on_of_nodup_map opDtPairs_map_nodup h₁ h₂ h
  exact ⟨congrArg Prod.fst h3, congrArg Prod.snd h3⟩

/-! ### Injectivity of the variant part -/

theorem largeChars_inj {l₁ l₂ : Bool} (h : largeChars l₁ = largeChars l₂) :
    l₁ = l₂ := by
  cases l₁ <;> cases l₂ <;> simp_all [largeChars]

theorem sfx_inj {l₁ l₂ : Bool} {w₁ w₂ : Nat}
    (h : sfxChars l₁ w₁ = sfxChars l₂ w₂) :
    l₁ = l₂ ∧ (l₁ = false → (1 < w₁ ↔ 1 < w₂)) := by
  simp only [sfxChars] at h
  cases l₁ <;> cases l₂ <;> split_ifs at h <;> simp_all
  omega

theorem largeChars_head_not_digit (l : Bool) (c : Char)
    (hc : (largeChars l).head? = some c) : ¬ c.isDigit = true := by
  cases l
  · simp [largeChars] at hc
  · simp only [largeChars, if_pos, List.head?_cons, Option.some.injEq] at hc
    subst hc
    decide

theorem generalCore_large_inj {n₁ n₂ w₁ w₂ : Nat} {l₁ l₂ : Bool}
    (h : generalCore n₁ w₁ ++ largeChars l₁ =
      generalCore n₂ w₂ ++ largeChars l₂) :
    rankBucket n₁ = rankBucket n₂ ∧ l₁ = l₂ ∧ (3 < n₁ → w₁ = w₂) := by
  simp only [generalCore] at h
  by_cases h₁ : n₁ ≤ 3
  · by_cases h₂ : n₂ ≤ 3
    · rw [if_pos h₁, if_pos h₂, natChars_small (by omega),
        natChars_small (by omega)] at h
      simp only [List.singleton_append, List.cons.injEq] at h
      obtain ⟨hd, hL⟩ := h
      have hn : n₁ = n₂ := by
        rw [← charVal_digitChar n₁ (by omega), hd,
          charVal_digitChar n₂ (by omega)]
      refine ⟨?_, largeChars_inj hL, fun hh => absurd hh (by omega)⟩
      rw [rankBucket, rankBucket, if_pos h₁, if_pos h₂, hn]
    · have hs₁ : natChars n₁ = [digitChar n₁] := natChars_small (by omega)
      rw [if_pos h₁, if_neg h₂, hs₁] at h
      simp only [List.singleton_append, List.cons_append,
        List.cons.injEq] at h
      obtain ⟨hd, -⟩ := h
      interval_cases n₁ <;> exact absurd hd (by decide)
  · by_cases h₂ : n₂ ≤ 3
    · have hs₂ : natChars n₂ = [digitChar n₂] := natChars_small (by omega)
      rw [if_neg h₁, if_pos h₂, hs₂] at h
      simp only [List.singleton_append, List.cons_append,
        List.cons.injEq] at h
      obtain ⟨hd, -⟩ := h
      interval_cases n₂ <;> exact absurd hd (by decide)
    · rw [if_neg h₁, if_neg h₂] at h
      simp only [List.cons_append, List.cons.injEq, true_and] at h
      obtain ⟨hw, hL⟩ := sep_split (fun c => c.isDigit = true)
        (natChars w₁) (natChars w₂) (largeChars l₁) (largeChars l₂)
        (natChars_digits w₁) (natChars_digits w₂)
        (largeChars_head_not_digit l₁) (largeChars_head_not_digit l₂) h
      refine ⟨?_, largeChars_inj hL, fun _ => natChars_inj hw⟩
      rw [rankBucket, rankBucket, if_neg h₁, if_neg h₂]

theorem variantChars_inj {b₁ b₂ : BinaryOpType} {l₁ l₂ : Bool}
    {n₁ n₂ w₁ w₂ : Nat}
    (hv : variantChars b₁ l₁ n₁ w₁ = variantChars b₂ l₂ n₂ w₂) :
    b₁ = b₂ ∧ (b₁ ≠ .ScalarScalar → l₁ = l₂) ∧
      (b₁ = .General → rankBucket n₁ = rankBucket n₂) ∧
      (b₁ = .General → 3 < n₁ → w₁ = w₂) ∧
      (b₁ ≠ .General → b₁ ≠ .ScalarScalar → l₁ = false →
        (1 < w₁ ↔ 1 < w₂)) := by
  cases b₁ <;> cases b₂ <;>
    try (exfalso; simp [variantChars] at hv; done)
  · exact ⟨rfl, fun h => absurd rfl h, fun h => absurd h (by decide),
      fun h => absurd h (by decide), fun _ h => absurd rfl h⟩
  · simp [variantChars] at hv
    exact ⟨rfl, fun _ => (sfx_inj hv).1, fun h => absurd h (by decide),
      fun h => absurd h (by decide), fun _ _ => (sfx_inj hv).2⟩
  · simp [variantChars] at hv
    exact ⟨rfl, fun _ => (sfx_inj hv).1, fun h => absurd h (by decide),
      fun h => absurd h (by decide), fun _ _ => (sfx_inj hv).2⟩
  · simp [variantChars] at hv
    exact ⟨rfl, fun _ => (sfx_inj hv).1, fun h => absurd h (by decide),
      fun h => absurd h (by decide), fun _ _ => (sfx_inj hv).2⟩
  · simp [variantChars] at hv
    obtain ⟨hb, hl, hw⟩ := generalCore_large_inj hv
    exact ⟨rfl, fun _ => hl, fun _ => hb, fun _ => hw,
      fun h => absurd rfl h⟩

/-- Claim C2 (amended): the variant-key builder is deterministic (it is a
pure function of the tuple), and over the repo's operator and dtype name
sets it is injective in category, operator, dtype, and — except for
`ScalarScalar`, which never encodes its width — the width flag; the rank
bucket is recovered for `General` keys, the exact work-per-thread value
only in the `General` overflow bucket, and for narrow compact variants
only the work-per-thread-exceeds-1 flag. -/
theorem c2_variant_key_injective (b₁ b₂ : BinaryOpType) (o₁ o₂ t₁ t₂ : String)
    (l₁ l₂ : Bool) (n₁ n₂ w₁ w₂ : Nat)
    (ho₁ : o₁ ∈ opNames) (ht₁ : t₁ ∈ dtypeNames)
    (ho₂ : o₂ ∈ opNames) (ht₂ : t₂ ∈ dtypeNames)
    (he : get_kernel_name b₁ o₁ t₁ l₁ n₁ w₁ =
      get_kernel_name b₂ o₂ t₂ l₂ n₂ w₂) :
    b₁ = b₂ ∧ o₁ = o₂ ∧ t₁ = t₂ ∧ (b₁ ≠ .ScalarScalar → l₁ = l₂) ∧
      (b₁ = .General → rankBucket n₁ = rankBucket n₂) ∧
      (b₁ = .General → 3 < n₁ → w₁ = w₂) ∧
      (b₁ ≠ .General → b₁ ≠ .ScalarScalar → l₁ = false →
        (1 < w₁ ↔ 1 < w₂)) := by
  have hd := congrArg String.data he
  rw [get_kernel_name_data, get_kernel_name_data] at hd
  obtain ⟨hv, ht⟩ := sep_split (fun c => c ≠ '_')
    (variantChars b₁ l₁ n₁ w₁) (variantChars b₂ l₂ n₂ w₂)
    ('_' :: (o₁.data ++ t₁.data)) ('_' :: (o₂.data ++ t₂.data))
    (variantChars_no_us b₁ l₁ n₁ w₁) (variantChars_no_us b₂ l₂ n₂ w₂)
    (fun c hc => by
      simp only [List.head?_cons, Option.some.injEq] at hc
      subst hc
      exact fun h => h rfl)
    (fun c hc => by
      simp only [List.head?_cons, Option.some.injEq] at hc
      subst hc
      exact fun h => h rfl) hd
  have hot : o₁.data ++ t₁.data = o₂.data ++ t₂.data := by
    simpa using ht
  have hs : o₁ ++ t₁ = o₂ ++ t₂ := by
    apply strExt
    rw [strData_append, strData_append]
    exact hot
  obtain ⟨ho, htt⟩ := opdt_inj ho₁ ht₁ ho₂ ht₂ hs
  obtain ⟨hb, h2, h3, h4, h5⟩ := variantChars_inj hv
  exact ⟨hb, ho, htt, h2, h3, h4, h5⟩

/-- Witness for C2 (amended): two equal `ScalarVector` keys at a concrete
tuple yield the amended conclusions. -/
theorem c2_variant_key_injective_witness :
    BinaryOpType.ScalarVector = BinaryOpType.ScalarVector ∧
      ("add" : String) = "add" ∧ ("float32" : String) = "float32" ∧
      (BinaryOpType.ScalarVector ≠ .ScalarScalar → (false : Bool) = false) ∧
      (BinaryOpType.ScalarVector = .General → rankBucket 0 = rankBucket 0) ∧
      (BinaryOpType.ScalarVector = .General → 3 < 0 → (2 : Nat) = 2) ∧
      (BinaryOpType.ScalarVector ≠ .General →
        BinaryOpType.ScalarVector ≠ .ScalarScalar → (false : Bool) = false →
          ((1 : Nat) < 2 ↔ (1 : Nat) < 2)) :=
  c2_variant_key_injective .ScalarVector .ScalarVector "add" "add"
    "float32" "float32" false false 0 0 2 2
    (by decide) (by decide) (by decide) (by decide) rfl

/-- Counterexample to C2 as stated: two tuples that differ only in the
work-per-thread field (2 versus 4) produce the same variant key. -/
theorem c2_wpt_collision :
    get_kernel_name .ScalarVector "add" "float32" false 0 2 =
      get_kernel_name .ScalarVector "add" "float32" false 0 4 ∧
      (2 : Nat) ≠ 4 :=
  ⟨rfl, by decide⟩

/-! ### Launch-dimension list lemmas -/

theorem getD_cons_len (x d : Nat) (xs : List Nat) :
    (x :: xs).getD xs.length d = lastD (x :: xs) := by
  induction xs generalizing x with
  | nil => rfl
  | cons y ys ih =>
    have h1 : (x :: y :: ys).getD (y :: ys).length d =
        (y :: ys).getD ys.length d := rfl
    rw [h1, ih y]
    rfl

theorem getD_last (l : List Nat) :
    (if 0 < l.length then l.getD (l.length - 1) 1 else 1) = lastD l := by
  cases l with
  | nil => rfl
  | cons x xs =>
    rw [if_pos (by simp)]
    have h1 : (x :: xs).length - 1 = xs.length := by simp
    rw [h1, getD_cons_len]

theorem getD_cons_cons_len (x y d : Nat) (ys : List Nat) :
    (x :: y :: ys).getD ys.length d = secondLastD (x :: y :: ys) := by
  induction ys generalizing x y with
  | nil => rfl
  | cons z zs ih =>
    have h1 : (x :: y :: z :: zs).getD (z :: zs).length d =
        (y :: z :: zs).getD zs.length d := rfl
    rw [h1, ih y z]
    rfl

theorem getD_secondLast (l : List Nat) :
    (if 1 < l.length then l.getD (l.length - 2) 1 else 1) = secondLastD l := by
  cases l with
  | nil => rfl
  | cons x xs =>
    cases xs with
    | nil => rfl
    | cons y ys =>
      rw [if_pos (by simp)]
      have h1 : (x :: y :: ys).length - 2 = ys.length := by simp
      rw [h1, getD_cons_cons_len]

theorem min_as_if (a b : Nat) : (if a < b then a else b) = min a b := by
  rw [Nat.min_def]
  split_ifs <;> omega

/-- The function `ceildiv` is the ceiling: the witnessed thread counts cover the
element count, with strictly fewer than one extra work-per-thread
stride. -/
theorem ceildiv_spec (a b : Nat) (hb : 0 < b) :
    a ≤ ceildiv a b * b ∧ ceildiv a b * b < a + b := by
  have hdm := Nat.div_add_mod (a + b - 1) b
  have hm : (a + b - 1) % b < b := Nat.mod_lt _ hb
  have h2 : ceildiv a b * b = b * ((a + b - 1) / b) := by
    rw [ceildiv, Nat.mul_comm]
  rw [h2]
  generalize (a + b - 1) / b = q at hdm
  generalize (a + b - 1) % b = r at hdm hm
  set s := b * q with hs
  omega

/-! ### Evaluation lemmas for the dispatcher -/

theorem inplace_empty (env : Env) (a b out : ArrayView)
    (out2 : Option ArrayView) (op : String) (h : out.size = 0) :
    binary_op_gpu_inplace env a b out out2 op = ⟨[], none⟩ := by
  simp [binary_op_gpu_inplace, h]

theorem inplace_general_err (env : Env) (a b out : ArrayView)
    (out2 : Option ArrayView) (op : String) (hne : out.size ≠ 0)
    (hg : get_binary_op_type a b = .General) (ht : env.max_threads ≠ 1024) :
    binary_op_gpu_inplace env a b out out2 op =
      ⟨headerTrace (dispatchKname env a b out op) a b out out2 ++
        generalBinds env a b out out2,
       some "[Metal::binary] Must use 1024 sized block"⟩ := by
  by_cases hnd : 3 < (maybeCollapse env BinaryOpType.General a b out).1.length <;>
    simp [binary_op_gpu_inplace, hne, hg, ht, hnd, generalBinds,
      dispatchKname, dispatchLarge, dispatchWpt, collapsedShape,
      collapsedStridesA, collapsedStridesB]

theorem inplace_general_ok (env : Env) (a b out : ArrayView)
    (out2 : Option ArrayView) (op : String) (hne : out.size ≠ 0)
    (hg : get_binary_op_type a b = .General) (ht : env.max_threads = 1024) :
    binary_op_gpu_inplace env a b out out2 op =
      ⟨headerTrace (dispatchKname env a b out op) a b out out2 ++
        generalBinds env a b out out2 ++
        [Action.dispatchThreads
          ⟨gGrid0 env a b out, gDim1 env a b out, gRest env a b out⟩
          (env.block_dims (gGrid0 env a b out) (gDim1 env a b out)
            (gRest env a b out))], none⟩ := by
  by_cases hnd : 3 < (maybeCollapse env BinaryOpType.General a b out).1.length <;>
    simp [binary_op_gpu_inplace, hne, hg, ht, hnd, generalBinds, gGrid0,
      gDim0, gDim1, gRest, ceildiv, dispatchKname, dispatchLarge,
      dispatchWpt, collapsedShape, collapsedStridesA, collapsedStridesB,
      ← getD_last, ← getD_secondLast]

theorem inplace_compact_large (env : Env) (a b out : ArrayView)
    (out2 : Option ArrayView) (op : String) (hne : out.size ≠ 0)
    (hc : get_binary_op_type a b ≠ .General)
    (hl : dispatchLarge a b out = true) :
    binary_op_gpu_inplace env a b out out2 op =
      ⟨headerTrace (dispatchKname env a b out op) a b out out2 ++
        [Action.bytesI64 out.dataSize (argStart out2),
         Action.dispatchThreads
           (env.grid_dims_2d out.shape out.strides (dispatchWpt env a b out))
           ⟨min (compactThreads env a b out) env.max_threads, 1, 1⟩],
       none⟩ := by
  have hl' : largeOf (get_binary_op_type a b) a b out = true := hl
  simp [binary_op_gpu_inplace, hne, hc, hl', dispatchKname, dispatchLarge,
    dispatchWpt, collapsedShape, maybeCollapse, compactThreads, ceildiv,
    min_as_if]

theorem inplace_compact_narrow (env : Env) (a b out : ArrayView)
    (out2 : Option ArrayView) (op : String) (hne : out.size ≠ 0)
    (hc : get_binary_op_type a b ≠ .General)
    (hl : dispatchLarge a b out = false) :
    binary_op_gpu_inplace env a b out out2 op =
      ⟨headerTrace (dispatchKname env a b out op) a b out out2 ++
        [Action.bytesI32 out.dataSize (argStart out2),
         Action.dispatchThreads ⟨compactThreads env a b out, 1, 1⟩
           ⟨min (compactThreads env a b out) env.max_threads, 1, 1⟩],
       none⟩ := by
  have hl' : largeOf (get_binary_op_type a b) a b out = false := hl
  simp [binary_op_gpu_inplace, hne, hc, hl', dispatchKname, dispatchLarge,
    dispatchWpt, collapsedShape, maybeCollapse, compactThreads, ceildiv,
    min_as_if]

theorem dispatchCount_header (k : String) (a b out : ArrayView)
    (out2 : Option ArrayView) :
    dispatchCount (headerTrace k a b out out2) = 0 := by
  cases out2 <;>
    simp [dispatchCount, headerTrace, List.countP_cons, List.countP_nil]

theorem dispatchCount_generalBinds (env : Env) (a b out : ArrayView)
    (out2 : Option ArrayView) :
    dispatchCount (generalBinds env a b out out2) = 0 := by
  simp only [generalBinds]
  split_ifs <;>
    simp [dispatchCount, List.countP_cons, List.countP_nil]

theorem dispatchCount_append (l₁ l₂ : List Action) :
    dispatchCount (l₁ ++ l₂) = dispatchCount l₁ + dispatchCount l₂ := by
  simp [dispatchCount, List.countP_append]

theorem isVecBind_header (k : String) (a b out : ArrayView)
    (out2 : Option ArrayView) :
    ∀ act ∈ headerTrace k a b out out2, isVecBind act = false := by
  intro act hact
  cases out2 with
  | none =>
    simp [headerTrace] at hact
    rcases hact with rfl | rfl | rfl | rfl <;> rfl
  | some o =>
    simp [headerTrace] at hact
    rcases hact with rfl | rfl | rfl | rfl | rfl <;> rfl

/-! ### The claims about the dispatcher -/

/-- Claim C3: width policy — on the `General` path the width is Wide iff
operand-a's or operand-b's storage element count or the output's element
count exceeds the 32-bit signed maximum (so a count equal to the maximum
selects Narrow and one more selects Wide), and work-per-thread is 4
under Wide and 2 otherwise; on the other, compact, categories the width
is Wide iff the output's storage element count exceeds the 32-bit
unsigned maximum. -/
theorem c3_width_policy (env : Env) (a b out : ArrayView) :
    (get_binary_op_type a b = .General →
      ((dispatchLarge a b out = true) ↔
        (INT32_MAX < a.dataSize ∨ INT32_MAX < b.dataSize ∨
          INT32_MAX < out.size)) ∧
      dispatchWpt env a b out =
        (if dispatchLarge a b out then 4 else 2)) ∧
    (get_binary_op_type a b ≠ .General →
      ((dispatchLarge a b out = true) ↔ UINT32_MAX < out.dataSize)) := by
  refine ⟨fun hg => ⟨?_, ?_⟩, fun hg => ?_⟩
  · simp [dispatchLarge, largeOf, hg, or_assoc]
  · simp [dispatchWpt, wptOf, hg]
  · simp [dispatchLarge, largeOf, hg]

/-- Witness for C3 at a concrete `General` dispatch. -/
theorem c3_width_policy_witness :
    ((dispatchLarge aGen bGen outGen = true) ↔
      (INT32_MAX < aGen.dataSize ∨ INT32_MAX < bGen.dataSize ∨
        INT32_MAX < outGen.size)) ∧
      dispatchWpt env0 aGen bGen outGen =
        (if dispatchLarge aGen bGen outGen then 4 else 2) :=
  (c3_width_policy env0 aGen bGen outGen).1 (by decide)

/-- Claim C4: on a nonempty `General`-path dispatch whose kernel reports
a maximum threads-per-group different from 1024 the operation records
the fatal block-size error and submits no launch; with exactly 1024 it
does not error; and a compact-category dispatch never raises the
error. -/
theorem c4_block_size_guard (env : Env) (a b out : ArrayView)
    (out2 : Option ArrayView) (op : String) (hne : out.size ≠ 0) :
    (get_binary_op_type a b = .General → env.max_threads ≠ 1024 →
      (binary_op_gpu_inplace env a b out out2 op).error =
          some "[Metal::binary] Must use 1024 sized block" ∧
        dispatchCount (binary_op_gpu_inplace env a b out out2 op).trace
          = 0) ∧
    (get_binary_op_type a b = .General → env.max_threads = 1024 →
      (binary_op_gpu_inplace env a b out out2 op).error = none) ∧
    (get_binary_op_type a b ≠ .General →
      (binary_op_gpu_inplace env a b out out2 op).error = none) := by
  refine ⟨fun hg ht => ?_, fun hg ht => ?_, fun hc => ?_⟩
  · rw [inplace_general_err env a b out out2 op hne hg ht]
    exact ⟨rfl, by
      rw [show (DispatchResult.mk
          (headerTrace (dispatchKname env a b out op) a b out out2 ++
            generalBinds env a b out out2)
          (some "[Metal::binary] Must use 1024 sized block")).trace =
          headerTrace (dispatchKname env a b out op) a b out out2 ++
            generalBinds env a b out out2 from rfl,
        dispatchCount_append, dispatchCount_header,
        dispatchCount_generalBinds]⟩
  · rw [inplace_general_ok env a b out out2 op hne hg ht]
  · cases hl : dispatchLarge a b out
    · rw [inplace_compact_narrow env a b out out2 op hne hc hl]
    · rw [inplace_compact_large env a b out out2 op hne hc hl]

/-- Witness for C4 at a concrete `General` dispatch on 512-thread
hardware. -/
theorem c4_block_size_guard_witness :
    (binary_op_gpu_inplace env512 aGen bGen outGen none "sub").error =
        some "[Metal::binary] Must use 1024 sized block" ∧
      dispatchCount
        (binary_op_gpu_inplace env512 aGen bGen outGen none "sub").trace
        = 0 :=
  (c4_block_size_guard env512 aGen bGen outGen none "sub" (by decide)).1
    (by decide) (by decide)

/-- Claim C5 (amended): an empty first output returns immediately with
no encoder actions; otherwise exactly one kernel submission is enqueued,
unless the `General`-path block-size check aborts the dispatch, in which
case nothing is submitted. -/
theorem c5_single_submission (env : Env) (a b out : ArrayView)
    (out2 : Option ArrayView) (op : String) :
    (out.size = 0 →
      binary_op_gpu_inplace env a b out out2 op = ⟨[], none⟩) ∧
    (out.size ≠ 0 →
      (binary_op_gpu_inplace env a b out out2 op).error = none →
      dispatchCount (binary_op_gpu_inplace env a b out out2 op).trace
        = 1) ∧
    (out.size ≠ 0 →
      (binary_op_gpu_inplace env a b out out2 op).error ≠ none →
      dispatchCount (binary_op_gpu_inplace env a b out out2 op).trace
        = 0) := by
  refine ⟨fun h => inplace_empty env a b out out2 op h,
    fun hne herr => ?_, fun hne herr => ?_⟩
  · by_cases hg : get_binary_op_type a b = .General
    · by_cases ht : env.max_threads = 1024
      · rw [inplace_general_ok env a b out out2 op hne hg ht]
        rw [show (DispatchResult.mk
            (headerTrace (dispatchKname env a b out op) a b out out2 ++
              generalBinds env a b out out2 ++
              [Action.dispatchThreads
                ⟨gGrid0 env a b out, gDim1 env a b out, gRest env a b out⟩
                (env.block_dims (gGrid0 env a b out) (gDim1 env a b out)
                  (gRest env a b out))]) none).trace =
            headerTrace (dispatchKname env a b out op) a b out out2 ++
              generalBinds env a b out out2 ++
              [Action.dispatchThreads
                ⟨gGrid0 env a b out, gDim1 env a b out, gRest env a b out⟩
                (env.block_dims (gGrid0 env a b out) (gDim1 env a b out)
                  (gRest env a b out))] from rfl,
          dispatchCount_append, dispatchCount_append,
          dispatchCount_header, dispatchCount_generalBinds]
        simp [dispatchCount, List.countP_cons, List.countP_nil]
      · rw [inplace_general_err env a b out out2 op hne hg ht] at herr
        simp at herr
    · cases hl : dispatchLarge a b out
      · rw [inplace_compact_narrow env a b out out2 op hne hg hl]
        cases out2 <;>
          simp [dispatchCount, headerTrace, List.countP_append,
            List.countP_cons, List.countP_nil]
      · rw [inplace_compact_large env a b out out2 op hne hg hl]
        cases out2 <;>
          simp [dispatchCount, headerTrace, List.countP_append,
            List.countP_cons, List.countP_nil]
  · by_cases hg : get_binary_op_type a b = .General
    · by_cases ht : env.max_threads = 1024
      · rw [inplace_general_ok env a b out out2 op hne hg ht] at herr
        simp at herr
      · rw [inplace_general_err env a b out out2 op hne hg ht]
        rw [show (DispatchResult.mk
            (headerTrace (dispatchKname env a b out op) a b out out2 ++
              generalBinds env a b out out2)
            (some "[Metal::binary] Must use 1024 sized block")).trace =
            headerTrace (dispatchKname env a b out op) a b out out2 ++
              generalBinds env a b out out2 from rfl,
          dispatchCount_append, dispatchCount_header,
          dispatchCount_generalBinds]
    · cases hl : dispatchLarge a b out
      · rw [inplace_compact_narrow env a b out out2 op hne hg hl] at herr
        simp at herr
      · rw [inplace_compact_large env a b out out2 op hne hg hl] at herr
        simp at herr

/-- Witness for C5 (amended) at a concrete nonempty compact dispatch. -/
theorem c5_single_submission_witness :
    dispatchCount
      (binary_op_gpu_inplace env0 aScalar bVec outVec none "add").trace
      = 1 :=
  (c5_single_submission env0 aScalar bVec outVec none "add").2.1
    (by decide) (by decide)

/-- Counterexample to C5 as stated: a nonempty `General` dispatch on a
512-thread-per-group configuration enqueues no kernel submission at
all. -/
theorem c5_no_submission_on_abort :
    outGen.size ≠ 0 ∧
      dispatchCount
        (binary_op_gpu_inplace env512 aGen bGen outGen none "mul").trace
        = 0 := by
  exact ⟨by decide, by decide⟩

/-- Claim C6: for every nonempty dispatch the kernel arguments are bound
in the fixed slot order — operand-a, operand-b, the output, then the
second output when present — followed on the `General` path by shape,
strides-a, strides-b and the rank when the collapsed rank exceeds 3 and
by strides-a, strides-b otherwise, and on the compact path by the output
element count, 64-bit-sized when Wide and 32-bit-sized otherwise. -/
theorem c6_binding_order (env : Env) (a b out : ArrayView)
    (out2 : Option ArrayView) (op : String) (hne : out.size ≠ 0)
    (hcontract : out.dataSize = out.size) :
    (get_binary_op_type a b = .General → env.max_threads = 1024 →
      bindTrace (binary_op_gpu_inplace env a b out out2 op).trace =
        headerTrace (dispatchKname env a b out op) a b out out2 ++
          generalBinds env a b out out2) ∧
    (get_binary_op_type a b ≠ .General → dispatchLarge a b out = true →
      bindTrace (binary_op_gpu_inplace env a b out out2 op).trace =
        headerTrace (dispatchKname env a b out op) a b out out2 ++
          [Action.bytesI64 out.size (argStart out2)]) ∧
    (get_binary_op_type a b ≠ .General → dispatchLarge a b out = false →
      bindTrace (binary_op_gpu_inplace env a b out out2 op).trace =
        headerTrace (dispatchKname env a b out op) a b out out2 ++
          [Action.bytesI32 out.size (argStart out2)]) := by
  refine ⟨fun hg ht => ?_, fun hc hl => ?_, fun hc hl => ?_⟩
  · rw [inplace_general_ok env a b out out2 op hne hg ht]
    cases out2 <;>
      by_cases hnd : 3 < (collapsedShape env a b out).length <;>
        simp [bindTrace, headerTrace, generalBinds, hnd,
          List.filter_append]
  · rw [inplace_compact_large env a b out out2 op hne hc hl, hcontract]
    cases out2 <;>
      simp [bindTrace, headerTrace, List.filter_append]
  · rw [inplace_compact_narrow env a b out out2 op hne hc hl, hcontract]
    cases out2 <;>
      simp [bindTrace, headerTrace, List.filter_append]

/-- Witness for C6 at a concrete narrow compact dispatch. -/
theorem c6_binding_order_witness :
    bindTrace
      (binary_op_gpu_inplace env0 aScalar bVec outVec none "div").trace =
      headerTrace (dispatchKname env0 aScalar bVec outVec "div")
          aScalar bVec outVec none ++
        [Action.bytesI32 outVec.size (argStart none)] :=
  (c6_binding_order env0 aScalar bVec outVec none "div" (by decide)
    (by decide)).2.2 (by decide) (by decide)

/-- Claim C7: on a nonempty `General` dispatch that passes the
block-size check, the submitted grid is exactly
(`dim0`, `dim1`, `rest`) with `dim0` the collapsed shape's last
dimension (1 if rank 0), `dim1` the second-to-last (1 if rank below 2),
`rest` the total output elements divided by `dim0 * dim1`, where `dim0`
is first replaced by its ceiling division by work-per-thread exactly
when the collapsed rank exceeds 3. -/
theorem c7_general_geometry (env : Env) (a b out : ArrayView)
    (out2 : Option ArrayView) (op : String) (hne : out.size ≠ 0)
    (hg : get_binary_op_type a b = .General)
    (ht : env.max_threads = 1024) :
    ∃ pre,
      (binary_op_gpu_inplace env a b out out2 op).trace =
        pre ++ [Action.dispatchThreads
          ⟨gGrid0 env a b out, gDim1 env a b out, gRest env a b out⟩
          (env.block_dims (gGrid0 env a b out) (gDim1 env a b out)
            (gRest env a b out))] ∧
      gDim0 env a b out = lastD (collapsedShape env a b out) ∧
      gDim1 env a b out = secondLastD (collapsedShape env a b out) ∧
      gRest env a b out =
        out.size / (gDim0 env a b out * gDim1 env a b out) ∧
      (3 < (collapsedShape env a b out).length →
        gGrid0 env a b out =
          ceildiv (gDim0 env a b out) (dispatchWpt env a b out) ∧
        gDim0 env a b out ≤
          gGrid0 env a b out * dispatchWpt env a b out ∧
        gGrid0 env a b out * dispatchWpt env a b out <
          gDim0 env a b out + dispatchWpt env a b out) ∧
      (¬ 3 < (collapsedShape env a b out).length →
        gGrid0 env a b out = gDim0 env a b out) := by
  have hwpos : 0 < dispatchWpt env a b out := by
    simp only [dispatchWpt, wptOf, hg, if_pos]
    split <;> omega
  refine ⟨headerTrace (dispatchKname env a b out op) a b out out2 ++
    generalBinds env a b out out2, ?_, rfl, rfl, rfl, fun hnd => ?_,
    fun hnd => ?_⟩
  · rw [inplace_general_ok env a b out out2 op hne hg ht]
  · have hgr : gGrid0 env a b out =
        ceildiv (gDim0 env a b out) (dispatchWpt env a b out) := by
      simp [gGrid0, hnd]
    have hcd := ceildiv_spec (gDim0 env a b out)
      (dispatchWpt env a b out) hwpos
    exact ⟨hgr, by rw [hgr]; exact hcd.1, by rw [hgr]; exact hcd.2⟩
  · simp [gGrid0, hnd]

/-- Witness for C7 at a concrete `General` dispatch collapsing to rank
1. -/
theorem c7_general_geometry_witness :
    ∃ pre,
      (binary_op_gpu_inplace env0 aGen bGen outGen none "max").trace =
        pre ++ [Action.dispatchThreads
          ⟨gGrid0 env0 aGen bGen outGen, gDim1 env0 aGen bGen outGen,
            gRest env0 aGen bGen outGen⟩
          (env0.block_dims (gGrid0 env0 aGen bGen outGen)
            (gDim1 env0 aGen bGen outGen)
            (gRest env0 aGen bGen outGen))] ∧
      gDim0 env0 aGen bGen outGen =
        lastD (collapsedShape env0 aGen bGen outGen) ∧
      gDim1 env0 aGen bGen outGen =
        secondLastD (collapsedShape env0 aGen bGen outGen) ∧
      gRest env0 aGen bGen outGen =
        outGen.size /
          (gDim0 env0 aGen bGen outGen * gDim1 env0 aGen bGen outGen) ∧
      (3 < (collapsedShape env0 aGen bGen outGen).length →
        gGrid0 env0 aGen bGen outGen =
          ceildiv (gDim0 env0 aGen bGen outGen)
            (dispatchWpt env0 aGen bGen outGen) ∧
        gDim0 env0 aGen bGen outGen ≤
          gGrid0 env0 aGen bGen outGen *
            dispatchWpt env0 aGen bGen outGen ∧
        gGrid0 env0 aGen bGen outGen * dispatchWpt env0 aGen bGen outGen
          < gDim0 env0 aGen bGen outGen +
              dispatchWpt env0 aGen bGen outGen) ∧
      (¬ 3 < (collapsedShape env0 aGen bGen outGen).length →
        gGrid0 env0 aGen bGen outGen = gDim0 env0 aGen bGen outGen) :=
  c7_general_geometry env0 aGen bGen outGen none "max" (by decide)
    (by decide) rfl

/-- Claim C8: on a nonempty compact dispatch the required thread count
is the ceiling of the output element count over work-per-thread, the
thread-group size is the minimum of the kernel's maximum
threads-per-group and the required count, and under Narrow width the
submitted grid is the flat 1D required count. -/
theorem c8_compact_geometry (env : Env) (a b out : ArrayView)
    (out2 : Option ArrayView) (op : String) (hne : out.size ≠ 0)
    (hc : get_binary_op_type a b ≠ .General)
    (hcontract : out.dataSize = out.size)
    (hw : 0 < dispatchWpt env a b out) :
    compactThreads env a b out =
      ceildiv out.size (dispatchWpt env a b out) ∧
    out.size ≤ compactThreads env a b out * dispatchWpt env a b out ∧
    compactThreads env a b out * dispatchWpt env a b out <
      out.size + dispatchWpt env a b out ∧
    ∃ pre grid,
      (binary_op_gpu_inplace env a b out out2 op).trace =
        pre ++ [Action.dispatchThreads grid
          ⟨min env.max_threads (compactThreads env a b out), 1, 1⟩] ∧
      (dispatchLarge a b out = false →
        grid = ⟨compactThreads env a b out, 1, 1⟩) := by
  have h1 : compactThreads env a b out =
      ceildiv out.size (dispatchWpt env a b out) := by
    rw [compactThreads, hcontract]
  have h2 := ceildiv_spec out.size (dispatchWpt env a b out) hw
  refine ⟨h1, by rw [h1]; exact h2.1, by rw [h1]; exact h2.2, ?_⟩
  cases hl : dispatchLarge a b out
  · refine ⟨headerTrace (dispatchKname env a b out op) a b out out2 ++
      [Action.bytesI32 out.dataSize (argStart out2)],
      ⟨compactThreads env a b out, 1, 1⟩, ?_, fun _ => rfl⟩
    rw [inplace_compact_narrow env a b out out2 op hne hc hl]
    simp [List.append_assoc, Nat.min_comm]
  · refine ⟨headerTrace (dispatchKname env a b out op) a b out out2 ++
      [Action.bytesI64 out.dataSize (argStart out2)],
      env.grid_dims_2d out.shape out.strides (dispatchWpt env a b out),
      ?_, fun hf => ?_⟩
    · rw [inplace_compact_large env a b out out2 op hne hc hl]
      simp [List.append_assoc, Nat.min_comm]
    · exact absurd hf (by decide)

/-- Witness for C8 at a concrete narrow `ScalarVector` dispatch. -/
theorem c8_compact_geometry_witness :
    compactThreads env0 aScalar bVec outVec =
      ceildiv outVec.size (dispatchWpt env0 aScalar bVec outVec) ∧
    outVec.size ≤ compactThreads env0 aScalar bVec outVec *
      dispatchWpt env0 aScalar bVec outVec ∧
    compactThreads env0 aScalar bVec outVec *
        dispatchWpt env0 aScalar bVec outVec <
      outVec.size + dispatchWpt env0 aScalar bVec outVec ∧
    ∃ pre grid,
      (binary_op_gpu_inplace env0 aScalar bVec outVec none "rem").trace =
        pre ++ [Action.dispatchThreads grid
          ⟨min env0.max_threads (compactThreads env0 aScalar bVec outVec),
            1, 1⟩] ∧
      (dispatchLarge aScalar bVec outVec = false →
        grid = ⟨compactThreads env0 aScalar bVec outVec, 1, 1⟩) :=
  c8_compact_geometry env0 aScalar bVec outVec none "rem" (by decide)
    (by decide) (by decide) (by decide)

/-- Claim C9: contiguous-dimension collapsing is applied exactly on the
`General` path; on every other category the collapsed shape and all
three stride sequences passed onward are empty, and no shape or stride
vector is ever bound. -/
theorem c9_collapse_only_general (env : Env) (a b out : ArrayView) :
    (get_binary_op_type a b = .General →
      maybeCollapse env (get_binary_op_type a b) a b out =
        env.collapse a b out) ∧
    (get_binary_op_type a b ≠ .General →
      maybeCollapse env (get_binary_op_type a b) a b out =
          ([], [], [], []) ∧
        ∀ (out2 : Option ArrayView) (op : String) (act : Action),
          act ∈ (binary_op_gpu_inplace env a b out out2 op).trace →
            isVecBind act = false) := by
  refine ⟨fun hg => by simp [maybeCollapse, hg], fun hc =>
    ⟨by simp [maybeCollapse, hc], fun out2 op act hact => ?_⟩⟩
  by_cases hne : out.size = 0
  · rw [inplace_empty env a b out out2 op hne] at hact
    simp at hact
  · cases hl : dispatchLarge a b out
    · rw [inplace_compact_narrow env a b out out2 op hne hc hl] at hact
      rcases List.mem_append.mp hact with h | h
      · exact isVecBind_header _ _ _ _ _ act h
      · simp at h
        rcases h with rfl | rfl <;> rfl
    · rw [inplace_compact_large env a b out out2 op hne hc hl] at hact
      rcases List.mem_append.mp hact with h | h
      · exact isVecBind_header _ _ _ _ _ act h
      · simp at h
        rcases h with rfl | rfl <;> rfl

/-- Witness for C9 at a concrete `ScalarVector` dispatch. -/
theorem c9_collapse_only_general_witness :
    maybeCollapse env0 (get_binary_op_type aScalar bVec) aScalar bVec
        outVec = ([], [], [], []) ∧
      ∀ (out2 : Option ArrayView) (op : String) (act : Action),
        act ∈ (binary_op_gpu_inplace env0 aScalar bVec outVec out2
            op).trace →
          isVecBind act = false :=
  (c9_collapse_only_general env0 aScalar bVec outVec).2 (by decide)

/-- Claim C10: the five cases of the `BitwiseBinary::eval_gpu` switch
each perform the same call, so the whole switch is behaviourally equal
to the single unconditional call `binary_op_gpu(inputs, out, name())`. -/
theorem c10_bitwise_switch (env : Env) (op_ : BitwiseOp)
    (name : BitwiseOp → String) (a b out : ArrayView) :
    BitwiseBinary_eval_gpu env op_ name a b out =
      binary_op_gpu env a b out (name op_) := by
  cases op_ <;> rfl

end MlxBinary
